import Mathlib

/-!
Shallow embedding of `src/boofuzz/ifuzzable.py` (the `IFuzzable` abstract
base class and its `DocStringInheritor` metaclass), together with proofs
about the fuzzable-element protocol it defines.

Conventions of the embedding:
* Python attribute state is carried in an explicit `Element` record;
  property reads that can mutate state (`name`, `qualified_name`) are
  state-passing functions returning the read value together with the
  updated element and the updated process-wide `name_counter`.
* A Python attribute that may be missing (`_context_path` before the
  first `qualified_name` access or setter call) is modelled as
  `Option (Option String)`: the outer `none` is "attribute not present"
  (reading it raises `AttributeError`), `some v` is "attribute present
  with value `v`" where `v : Option String` and `none` is Python `None`.
* Semantic values handled by `encode` / `render_mutated` are `Nat`
  (the source is dynamically typed; the protocol never inspects the
  value, so any concretely decidable carrier is faithful).
* The `Mutation` object supplied by the caller is threaded through every
  function that receives it, so frame conditions ("elements only read
  it") are expressible as the returned mutation being equal to the
  supplied one.
-/

namespace Boofuzz

/-- Semantic values carried through the render/encode pipeline. -/
abbrev Value := Nat

/-- The request-scoped `Mutation` object: its `mutations` attribute maps
qualified element names to replacement values (a Python dict, embedded
as an association list looked up with `List.lookup`). -/
structure Mutation where
  mutations : List (String × Value)
deriving DecidableEq

/-- The per-element attribute state of an `IFuzzable` instance.
`typeName` is `type(self).__name__`; `_name`, `_context_path` and
`_fuzzable` are the instance attributes of the same names in the source.
`original_value` is the element's default value (abstract in the source;
concrete variants store it, so it is a plain field here). -/
structure Element where
  typeName : String
  _name : Option String
  _context_path : Option (Option String)
  _fuzzable : Bool
  original_value : Value
deriving DecidableEq

/-- Embeds `IFuzzable.fuzzable`: `return self._fuzzable`. -/
def fuzzable (e : Element) : Bool :=
  e._fuzzable

/-- Embeds `IFuzzable.mutant_index`: the property body is a bare `return`, so
reading it yields Python `None` (here `none`), whatever the element. -/
def mutant_index (e : Element) : Option Nat :=
  none

/-- Embeds the `IFuzzable.name` property read, state-passing over the process-wide
`IFuzzable.name_counter` (argument and result `c : Nat`):
```
if self._name is None:
    IFuzzable.name_counter += 1
    self._name = "{0}{1}".format(type(self).__name__, IFuzzable.name_counter)
return self._name
```
Returns the name, the updated element and the updated counter. -/
def name (c : Nat) (e : Element) : String × Element × Nat :=
  match e._name with
  | some n => (n, e, c)
  | none =>
      let n := e.typeName ++ Nat.repr (c + 1)
      (n, { e with _name := some n }, c + 1)

/-- The argument tuple of `".".join(filter(None, (self._context_path, self.name)))`:
`filter(None, ...)` drops the falsy entries, i.e. a `None` or empty
context path and an empty name. -/
def pieces (cp : Option String) (n : String) : List String :=
  (match cp with
   | none => []
   | some p => if p = "" then [] else [p]) ++
  (if n = "" then [] else [n])

/-- The joined value computed on the `return` line of the
`qualified_name` property: `".".join(filter(None, (cp, n)))`. -/
def qualified_name_val (cp : Option String) (n : String) : String :=
  String.intercalate "." (pieces cp n)

/-- The `hasattr` guard at the top of the `qualified_name` property:
```
if not hasattr(self, '_context_path'):
    self._context_path = None
```
-/
def ensure_context_path (e : Element) : Element :=
  if e._context_path.isNone then { e with _context_path := some none } else e

/-- Embeds the `IFuzzable.qualified_name` property read, state-passing like `name`:
runs the `hasattr` guard, reads `self._context_path` and `self.name`,
and joins the truthy pieces with `"."`. -/
def qualified_name (c : Nat) (e : Element) : String × Element × Nat :=
  let e0 := ensure_context_path e
  let r := name c e0
  (qualified_name_val (e0._context_path.getD none) r.1, r.2.1, r.2.2)

/-- Embeds the `IFuzzable.context_path` getter: `return self._context_path`.
Result `none` models the `AttributeError` raised when the attribute was
never set; `some v` is a successful read of value `v`. -/
def context_path (e : Element) : Option (Option String) :=
  e._context_path

/-- Embeds the `IFuzzable.context_path` setter: `self._context_path = x`. -/
def set_context_path (e : Element) (x : Option String) : Element :=
  { e with _context_path := some x }

/-- Embeds `IFuzzable.encode`: `return value` (the identity default; `self` is
ignored). -/
def encode (e : Element) (value : Value) (child_data : Option Value) : Value :=
  value

/-- Embeds `IFuzzable.get_child_data`: `return None`. The mutation object is
threaded through and returned so the frame condition on it is explicit. -/
def get_child_data (e : Element) (mutation : Mutation) : Option Value × Mutation :=
  (none, mutation)

/-- Embeds `IFuzzable.render_mutated`:
```
child_data = self.get_child_data(mutation=mutation)
if self.qualified_name in mutation.mutations:
    return self.encode(mutation.mutations[self.qualified_name], child_data=child_data)
else:
    return self.encode(value=self.original_value, child_data=child_data)
```
The source reads the `qualified_name` property twice (membership test,
then subscript); the second read returns the same string and leaves all
state unchanged (`qualified_name_read_twice` below), so the embedding
performs the single lookup the two reads amount to. Returns the rendered
value, then the updated element, counter and mutation. -/
def render_mutated (c : Nat) (e : Element) (mutation : Mutation) :
    Value × Element × Nat × Mutation :=
  let cd := get_child_data e mutation
  let child_data := cd.1
  let m1 := cd.2
  let q := qualified_name c e
  match m1.mutations.lookup q.1 with
  | some v => (encode q.2.1 v child_data, q.2.1, q.2.2, m1)
  | none => (encode q.2.1 q.2.1.original_value child_data, q.2.1, q.2.2, m1)

/-- Modelled from the spec: the legacy stateful mutation interface.
`IFuzzable.mutate` in `src/boofuzz/ifuzzable.py` is a documented stub
(its body is a bare `return`); the state machine it documents is
implemented by the concrete element variants, which are not part of the
supplied fragment. The spec's scenario fixes the behavior: with
`num_mutations() == 3` the sequence of `mutate()` calls returns
`true, true, true, false` and after the third `true`,
`mutant_index == 3`; so `mutate()` advances and returns `true` exactly
while `mutant_index < num_mutations()`, and otherwise returns `false`
without advancing. `LegacyState` carries the element's mutation count
and its current index. -/
structure LegacyState where
  num_mutations : Nat
  mutant_index : Nat
deriving DecidableEq

/-- Modelled from the spec: one `mutate()` call on the legacy interface.
Returns the boolean result and the updated state. -/
def mutate (s : LegacyState) : Bool × LegacyState :=
  if s.mutant_index < s.num_mutations then
    (true, { s with mutant_index := s.mutant_index + 1 })
  else
    (false, s)

/-- Modelled from the spec: `reset()` transitions unconditionally back to
the unmutated state. -/
def reset (s : LegacyState) : LegacyState :=
  { s with mutant_index := 0 }

/-- The operations marked abstract in `IFuzzable` (via
`abc.abstractproperty` / `abc.abstractmethod`): `mutations`,
`original_value`, `num_mutations`, `render`, `__repr__`, `__len__`,
`__bool__`. -/
inductive OpName where
  | mutations
  | original_value
  | num_mutations
  | render
  | reprOp
  | lenOp
  | boolOp
deriving DecidableEq

/-- The list of abstract-marked operations of `IFuzzable`. -/
def abstract_ops : List OpName :=
  [.mutations, .original_value, .num_mutations, .render, .reprOp, .lenOp, .boolOp]

/-- A concrete variant's class body, abstracted to which of the
abstract-marked operations it overrides with an implementation. -/
structure ClassDef where
  implemented : List OpName
deriving DecidableEq

/-- The two metaclasses relevant to `IFuzzable`'s abstract-operation
contract. `abc.abstractmethod` / `abc.abstractproperty` only tag an
attribute with `__isabstractmethod__`; enforcement is performed by
`abc.ABCMeta`, which collects the unoverridden tagged attributes into
`__abstractmethods__` so that instantiation fails when that set is
non-empty. `DocStringInheritor` (the metaclass the source actually
installs, via `with_metaclass(DocStringInheritor, object)`) derives from
plain `type`: its `__new__` copies docstrings and calls `type.__new__`,
so `__abstractmethods__` is never populated. -/
inductive Metaclass where
  | abcMeta
  | docStringInheritor
deriving DecidableEq

/-- The metaclass the source installs on `IFuzzable` and every subclass. -/
def ifuzzable_metaclass : Metaclass := .docStringInheritor

/-- The abstract-marked operations a concrete variant leaves
unimplemented. -/
def missing_abstract_ops (cd : ClassDef) : List OpName :=
  abstract_ops.filter (fun op => !(cd.implemented.contains op))

/-- Whether instantiating a concrete variant with class body `cd`
succeeds: under `abc.ABCMeta` it fails when an abstract-marked operation
is missing; under `DocStringInheritor` it always succeeds, because the
abstract markers are never collected or checked. -/
def instantiation_succeeds (mc : Metaclass) (cd : ClassDef) : Bool :=
  match mc with
  | .abcMeta => (missing_abstract_ops cd).isEmpty
  | .docStringInheritor => true

/-- What a fuzz run observes when it invokes an abstract-marked operation
on an instance of variant `cd`: if the variant implemented the operation
the override runs (`true`); otherwise the inherited `IFuzzable` stub
runs and silently returns `None` — no error is raised at invocation
either. -/
def invoke_runs_override (cd : ClassDef) (op : OpName) : Bool :=
  cd.implemented.contains op

/-! ### Example elements used as concrete inputs -/

/-- Example element with no explicit name and no context path set
(the state of a freshly constructed element). -/
def elemUnnamed : Element :=
  ⟨"Bytes", none, none, true, 0⟩

/-- Example element whose name is already cached and whose context path
attribute is present with value Python `None`. -/
def elemNamed : Element :=
  ⟨"Bytes", some "len", some none, true, 42⟩

/-- Example element attached under the context path `"header"`. -/
def elemInHeader : Element :=
  ⟨"Bytes", some "len", some (some "header"), true, 42⟩

/-! ### Helper lemmas about the embedded operations -/

/-- Reading `name` does not touch the context-path attribute. -/
theorem name_context_path (c : Nat) (e : Element) :
    (name c e).2.1._context_path = e._context_path := by
  unfold name; cases e._name <;> rfl

/-- Reading `name` does not touch the original value. -/
theorem name_original_value (c : Nat) (e : Element) :
    (name c e).2.1.original_value = e.original_value := by
  unfold name; cases e._name <;> rfl

/-- After one read of `name`, the name attribute caches the returned
string. -/
theorem name_caches (c : Nat) (e : Element) :
    (name c e).2.1._name = some (name c e).1 := by
  unfold name; cases h : e._name <;> simp [h]

/-- A second read of `name` (at any later counter value) returns the same
string and changes nothing. -/
theorem name_read_twice (c c2 : Nat) (e : Element) :
    name c2 (name c e).2.1 = ((name c e).1, (name c e).2.1, c2) := by
  unfold name; cases h : e._name <;> simp [h]

/-- The `hasattr` guard does not touch the name attribute. -/
theorem ensure_context_path_name (e : Element) :
    (ensure_context_path e)._name = e._name := by
  unfold ensure_context_path; split <;> rfl

/-- The `hasattr` guard does not touch the original value. -/
theorem ensure_context_path_original_value (e : Element) :
    (ensure_context_path e).original_value = e.original_value := by
  unfold ensure_context_path; split <;> rfl

/-- After the `hasattr` guard, the context-path attribute is present and
holds the default `None` when it was missing. -/
theorem ensure_context_path_val (e : Element) :
    (ensure_context_path e)._context_path = some (e._context_path.getD none) := by
  unfold ensure_context_path
  cases h : e._context_path <;> simp [h]

/-- The `hasattr` guard is the identity once the attribute is present. -/
theorem ensure_context_path_of_some (e : Element) (x : Option String)
    (h : e._context_path = some x) : ensure_context_path e = e := by
  unfold ensure_context_path; simp [h]

/-- Reading `name` on the guard-fixed element returns the same string as
on the original element. -/
theorem name_fst_ensure_context_path (c : Nat) (e : Element) :
    (name c (ensure_context_path e)).1 = (name c e).1 := by
  cases hcp : e._context_path <;> cases hn : e._name <;>
    simp [name, ensure_context_path, hcp, hn]

/-- Reading the counter after a `name` read of the guard-fixed element
matches the read of the original element. -/
theorem name_counter_ensure_context_path (c : Nat) (e : Element) :
    (name c (ensure_context_path e)).2.2 = (name c e).2.2 := by
  cases hcp : e._context_path <;> cases hn : e._name <;>
    simp [name, ensure_context_path, hcp, hn]

/-- Joining a single non-empty piece returns it unchanged. -/
theorem intercalate_dot_single (n : String) :
    String.intercalate "." [n] = n := rfl

/-- Joining two pieces inserts a single dot. -/
theorem intercalate_dot_pair (p n : String) :
    String.intercalate "." [p, n] = p ++ "." ++ n := rfl

/-- A second read of `qualified_name` (at any later counter value)
returns the same string and changes nothing; this justifies embedding
the two property reads in `render_mutated` as one. -/
theorem qualified_name_read_twice (c c2 : Nat) (e : Element) :
    qualified_name c2 (qualified_name c e).2.1 =
      ((qualified_name c e).1, (qualified_name c e).2.1, c2) := by
  unfold qualified_name ensure_context_path
  cases hcp : e._context_path <;> cases hn : e._name <;>
    simp [hcp, hn, name, qualified_name_val, pieces]

/-- Reading `qualified_name` does not touch the original value. -/
theorem qualified_name_original_value (c : Nat) (e : Element) :
    (qualified_name c e).2.1.original_value = e.original_value := by
  unfold qualified_name
  rw [name_original_value, ensure_context_path_original_value]

/-! ### Decimal representations of consecutive counters differ

`name` synthesizes `typeName ++ Nat.repr counter`; to show two successive
draws give distinct names we show the decimal strings of two consecutive
naturals differ, by looking at the last digit. -/

/-- The core printer `Nat.toDigitsCore` only prepends characters, so the last character of
the accumulator survives. -/
theorem toDigitsCore_getLast_concat (b : Nat) :
    ∀ (fuel n : Nat) (ds : List Char) (ch : Char),
      (Nat.toDigitsCore b fuel n (ds ++ [ch])).getLast? = some ch := by
  intro fuel
  induction fuel with
  | zero => intro n ds ch; simp [Nat.toDigitsCore, List.getLast?_concat]
  | succ f ih =>
      intro n ds ch
      simp only [Nat.toDigitsCore]
      split
      · exact List.getLast?_concat (Nat.digitChar (n % b) :: ds)
      · have h := ih (n / b) (Nat.digitChar (n % b) :: ds) ch
        simpa using h

/-- The last character of `Nat.toDigits 10 n` is the digit character of
`n % 10`. -/
theorem toDigits_getLast (n : Nat) :
    (Nat.toDigits 10 n).getLast? = some (Nat.digitChar (n % 10)) := by
  unfold Nat.toDigits
  simp only [Nat.toDigitsCore]
  split
  · rfl
  · have h := toDigitsCore_getLast_concat 10 n (n / 10) [] (Nat.digitChar (n % 10))
    simpa using h

/-- The function `Nat.digitChar` is injective on digits below ten. -/
theorem digitChar_inj_lt_ten :
    ∀ a b : Fin 10, Nat.digitChar a.val = Nat.digitChar b.val → a = b := by
  decide

/-- The decimal strings of two consecutive positive naturals differ:
their last digits are `(n+1) % 10` and `(n+2) % 10`, which are never
equal. -/
theorem repr_succ_succ_ne (n : Nat) : Nat.repr (n + 1) ≠ Nat.repr (n + 2) := by
  intro h
  have hd : Nat.toDigits 10 (n + 1) = Nat.toDigits 10 (n + 2) := by
    have h2 := congrArg String.data h
    simpa [Nat.repr, List.asString] using h2
  have g1 := toDigits_getLast (n + 1)
  have g2 := toDigits_getLast (n + 2)
  rw [hd, g2] at g1
  have hc : Nat.digitChar ((n + 2) % 10) = Nat.digitChar ((n + 1) % 10) := by
    injection g1
  have hlt1 : (n + 1) % 10 < 10 := Nat.mod_lt _ (by norm_num)
  have hlt2 : (n + 2) % 10 < 10 := Nat.mod_lt _ (by norm_num)
  have := digitChar_inj_lt_ten ⟨(n + 2) % 10, hlt2⟩ ⟨(n + 1) % 10, hlt1⟩ hc
  have hv : (n + 2) % 10 = (n + 1) % 10 := congrArg Fin.val this
  omega

/-- Appending to a common prefix is injective on strings. -/
theorem string_append_left_cancel (t x y : String)
    (h : t ++ x = t ++ y) : x = y := by
  have h2 := congrArg String.data h
  simp only [String.data_append] at h2
  exact String.ext (List.append_cancel_left h2)

/-! ### Further shared lemmas about `qualified_name` -/

/-- Joining the pieces of a missing or `None` context path with a
non-empty name yields the bare name. -/
theorem qualified_name_val_of_none (n : String) (hn : n ≠ "") :
    qualified_name_val none n = n := by
  simp [qualified_name_val, pieces, hn]
  exact intercalate_dot_single n

/-- Joining the pieces of an empty-string context path with a non-empty
name yields the bare name. -/
theorem qualified_name_val_of_empty (n : String) (hn : n ≠ "") :
    qualified_name_val (some "") n = n := by
  simp [qualified_name_val, pieces, hn]
  exact intercalate_dot_single n

/-- Joining a non-empty context path with a non-empty name inserts a
single dot. -/
theorem qualified_name_val_of_nonempty (p n : String) (hp : p ≠ "") (hn : n ≠ "") :
    qualified_name_val (some p) n = p ++ "." ++ n := by
  simp [qualified_name_val, pieces, hp, hn]
  exact intercalate_dot_pair p n

/-- The string returned by a `qualified_name` read is the join of the
stored context path (defaulted to `None`) and the `name` read. -/
theorem qualified_name_fst_eq (c : Nat) (e : Element) :
    (qualified_name c e).1 =
      qualified_name_val (e._context_path.getD none) (name c e).1 := by
  show qualified_name_val ((ensure_context_path e)._context_path.getD none)
      (name c (ensure_context_path e)).1 =
    qualified_name_val (e._context_path.getD none) (name c e).1
  rw [name_fst_ensure_context_path, ensure_context_path_val]
  simp

/-! ### The claims -/

/-- C1: for every element and every mutation, `render_mutated(m)` returns
`encode(v, child_data)` where `child_data = get_child_data(m)` and `v`
is the mutation's mapped replacement for the element's qualified name
when that name is a key of the mapping, and the element's
`original_value` otherwise. -/
theorem render_mutated_encodes_replacement_or_original
    (c : Nat) (e : Element) (m : Mutation) :
    (render_mutated c e m).1 =
      encode e
        ((m.mutations.lookup (qualified_name c e).1).getD e.original_value)
        (get_child_data e m).1 := by
  unfold render_mutated
  cases h : m.mutations.lookup (qualified_name c e).1 <;>
    simp [h, encode, get_child_data, qualified_name_original_value]

/-- C2: the code does not detect a missing abstract operation at
class-definition or instantiation time. A variant implementing none of
the abstract-marked operations still instantiates under the
`DocStringInheritor` metaclass the source installs (while `abc.ABCMeta`
would have rejected it), and invoking the missing operation merely runs
the inherited stub. -/
theorem incomplete_variant_instantiates :
    instantiation_succeeds ifuzzable_metaclass (ClassDef.mk []) = true ∧
    missing_abstract_ops (ClassDef.mk []) = abstract_ops ∧
    instantiation_succeeds Metaclass.abcMeta (ClassDef.mk []) = false ∧
    invoke_runs_override (ClassDef.mk []) OpName.mutations = false := by
  decide

/-- C3, counterexample: in the state with `num_mutations = 1` and
`mutant_index = 1` — inside the claimed Mutating range
`1..num_mutations()` — `mutate()` returns `false` and does not advance,
contradicting the claim that every call in that range advances and
returns `true`. -/
theorem mutate_at_top_of_range_returns_false :
    1 ≤ (LegacyState.mk 1 1).mutant_index ∧
    (LegacyState.mk 1 1).mutant_index ≤ (LegacyState.mk 1 1).num_mutations ∧
    (mutate (LegacyState.mk 1 1)).1 = false ∧
    (mutate (LegacyState.mk 1 1)).2 = LegacyState.mk 1 1 := by
  decide

/-- C3, amended: `mutate()` advances `mutant_index` by one and returns
`true` exactly while `mutant_index` is strictly below `num_mutations()`;
once `mutant_index` reaches (or exceeds) `num_mutations()`, `mutate()`
returns `false` and does not advance further. -/
theorem mutate_advances_strictly_below_count (s : LegacyState) :
    (s.mutant_index < s.num_mutations →
        mutate s = (true, LegacyState.mk s.num_mutations (s.mutant_index + 1))) ∧
    (s.num_mutations ≤ s.mutant_index →
        mutate s = (false, s)) := by
  constructor
  · intro h
    simp [mutate, h]
  · intro h
    have h2 : ¬ s.mutant_index < s.num_mutations := Nat.not_lt.mpr h
    simp [mutate, h2]

/-- C3, witness: with three mutations, the first call from the unmutated
state advances to index 1 and returns `true`; at index 3 the call
returns `false` and leaves the state unchanged. -/
theorem mutate_advances_strictly_below_count_witness :
    mutate (LegacyState.mk 3 0) = (true, LegacyState.mk 3 1) ∧
    mutate (LegacyState.mk 3 3) = (false, LegacyState.mk 3 3) :=
  ⟨(mutate_advances_strictly_below_count (LegacyState.mk 3 0)).1 (by decide),
   (mutate_advances_strictly_below_count (LegacyState.mk 3 3)).2 (by decide)⟩

/-- C4: for every element whose (defaulted) context path is `None` or
empty, `qualified_name` is the bare `name`; for every element whose
context path is a non-empty string `p`, `qualified_name` is
`p ++ "." ++ name` (falsy pieces are filtered before joining). -/
theorem qualified_name_eq_name_or_dotted (c : Nat) (e : Element)
    (hn : (name c e).1 ≠ "") :
    ((e._context_path.getD none = none ∨ e._context_path.getD none = some "") →
        (qualified_name c e).1 = (name c e).1) ∧
    (∀ p, e._context_path.getD none = some p → p ≠ "" →
        (qualified_name c e).1 = p ++ "." ++ (name c e).1) := by
  constructor
  · intro hcp
    rw [qualified_name_fst_eq]
    rcases hcp with hcp | hcp <;> rw [hcp]
    · exact qualified_name_val_of_none _ hn
    · exact qualified_name_val_of_empty _ hn
  · intro p hcp hp
    rw [qualified_name_fst_eq, hcp]
    exact qualified_name_val_of_nonempty p _ hp hn

/-- C4, witness: the element named `"len"` attached under context path
`"header"` has qualified name `"header" ++ "." ++ "len"`. -/
theorem qualified_name_eq_name_or_dotted_witness :
    (name 0 elemInHeader).1 ≠ "" ∧
    (qualified_name 0 elemInHeader).1 = "header" ++ "." ++ (name 0 elemInHeader).1 :=
  ⟨by decide,
   (qualified_name_eq_name_or_dotted 0 elemInHeader (by decide)).2 "header" rfl (by decide)⟩

/-- C5, counterexample: on an element with no mutation active, reading
`mutant_index` does not return the integer 0 — the property body is a
bare `return`, so the read yields `None`. -/
theorem mutant_index_not_zero :
    ¬ mutant_index elemNamed = some 0 := by
  decide

/-- C5, amended: reading `mutant_index` on any element of the supplied
fragment returns `None` (none/unset), not the integer 0. -/
theorem mutant_index_always_none (e : Element) :
    mutant_index e = none :=
  rfl

/-- C6: once first read, `name` is stable — every later read (at any
counter value) returns the same string and changes no state; and when no
name was explicitly assigned, the first read synthesizes the concrete
type's name concatenated with the freshly incremented process-wide
counter. -/
theorem name_stable_and_auto_generated (c : Nat) (e : Element) :
    (∀ c2, name c2 (name c e).2.1 = ((name c e).1, (name c e).2.1, c2)) ∧
    (e._name = none →
        (name c e).1 = e.typeName ++ Nat.repr (c + 1) ∧
        (name c e).2.2 = c + 1) := by
  refine ⟨fun c2 => name_read_twice c c2 e, fun h => ?_⟩
  unfold name
  simp [h]

/-- C6, witness: an unnamed `"Bytes"` element first read at counter 5 is
named `"Bytes" ++ Nat.repr 6`, the counter moves to 6, and a later read
at counter 7 returns the same name without changing the element. -/
theorem name_stable_and_auto_generated_witness :
    name 7 (name 5 elemUnnamed).2.1 =
      ((name 5 elemUnnamed).1, (name 5 elemUnnamed).2.1, 7) ∧
    (name 5 elemUnnamed).1 = "Bytes" ++ Nat.repr 6 ∧
    (name 5 elemUnnamed).2.2 = 6 :=
  ⟨(name_stable_and_auto_generated 5 elemUnnamed).1 7,
   (name_stable_and_auto_generated 5 elemUnnamed).2 rfl⟩

/-- C7: two elements of the same concrete variant with no explicit
names, whose names are first read in sequence, receive distinct
auto-generated names: the shared counter strictly increases between the
two draws, and consecutive counter values have distinct decimal
strings. -/
theorem auto_names_distinct (c : Nat) (e f : Element)
    (he : e._name = none) (hf : f._name = none)
    (ht : e.typeName = f.typeName) :
    (name c e).1 ≠ (name (name c e).2.2 f).1 := by
  unfold name
  simp only [he, hf]
  rw [ht]
  intro hcontra
  exact repr_succ_succ_ne c
    (string_append_left_cancel f.typeName _ _ hcontra)

/-- C7, witness: two unnamed `"Bytes"` elements read in sequence from
counter 0 receive the distinct names `"Bytes1"` and `"Bytes2"`. -/
theorem auto_names_distinct_witness :
    (name 0 elemUnnamed).1 ≠ (name (name 0 elemUnnamed).2.2 elemUnnamed).1 :=
  auto_names_distinct 0 elemUnnamed elemUnnamed rfl rfl rfl

/-- C8: `render_mutated` — including its internal `get_child_data` call —
returns the supplied mutation unchanged: elements only read it. -/
theorem render_mutated_reads_mutation_only (c : Nat) (e : Element) (m : Mutation) :
    (get_child_data e m).2 = m ∧ (render_mutated c e m).2.2.2 = m := by
  refine ⟨rfl, ?_⟩
  unfold render_mutated
  cases h : m.mutations.lookup (qualified_name c e).1 <;>
    simp [h, get_child_data]

/-- C9: when the mutation's mapping omits the element's qualified name,
`render_mutated` returns the same value as with an empty mapping. -/
theorem render_mutated_miss_eq_empty_mutation (c : Nat) (e : Element) (m : Mutation)
    (h : m.mutations.lookup (qualified_name c e).1 = none) :
    (render_mutated c e m).1 = (render_mutated c e (Mutation.mk [])).1 := by
  unfold render_mutated
  simp [h, get_child_data]

/-- C9, witness: a mutation mentioning only `"other"` renders the
element named `"len"` exactly as the empty mutation does. -/
theorem render_mutated_miss_eq_empty_mutation_witness :
    (Mutation.mk [("other", 5)]).mutations.lookup (qualified_name 0 elemNamed).1 = none ∧
    (render_mutated 0 elemNamed (Mutation.mk [("other", 5)])).1 =
      (render_mutated 0 elemNamed (Mutation.mk [])).1 :=
  ⟨by decide,
   render_mutated_miss_eq_empty_mutation 0 elemNamed (Mutation.mk [("other", 5)]) (by decide)⟩

/-- C10: on an element whose context-path attribute was never set,
reading `context_path` fails (`AttributeError`, modelled as `none`);
the first `qualified_name` read initializes the stored context path to
`None`, so `qualified_name` returns the bare name and a later
`context_path` read succeeds with `None`. -/
theorem qualified_name_initializes_context_path (c : Nat) (e : Element)
    (h : e._context_path = none) :
    context_path e = none ∧
    (qualified_name c e).2.1._context_path = some none ∧
    context_path (qualified_name c e).2.1 = some none ∧
    ((name c e).1 ≠ "" → (qualified_name c e).1 = (name c e).1) := by
  have hset : (qualified_name c e).2.1._context_path = some none := by
    show (name c (ensure_context_path e)).2.1._context_path = some none
    rw [name_context_path, ensure_context_path_val, h]
    rfl
  refine ⟨by simp [context_path, h], hset, by simp [context_path, hset], fun hn => ?_⟩
  rw [qualified_name_fst_eq, h]
  exact qualified_name_val_of_none _ hn

/-- C10, witness: on the freshly constructed unnamed element,
`context_path` fails before any `qualified_name` access, and after one
`qualified_name` read it returns `None` while `qualified_name` returned
the bare auto-generated name. -/
theorem qualified_name_initializes_context_path_witness :
    context_path elemUnnamed = none ∧
    (qualified_name 0 elemUnnamed).2.1._context_path = some none ∧
    context_path (qualified_name 0 elemUnnamed).2.1 = some none ∧
    ((name 0 elemUnnamed).1 ≠ "" → (qualified_name 0 elemUnnamed).1 = (name 0 elemUnnamed).1) :=
  qualified_name_initializes_context_path 0 elemUnnamed rfl

end Boofuzz
